import Mathlib

/-!
# Verification of `sandman/model.py`

A shallow embedding of the model-registration and entity-serialization layer
of the sandman repository (`src/sandman/model.py`), together with proofs of
the specification claims about it.

Python values that can appear as column values or dictionary entries are
modelled by the inductive type `PyVal`; Python dictionaries (which preserve
insertion order and overwrite on repeated key assignment) by association
lists; a resource instance's attribute store by an association list as well,
with `getattr(self, name, None)` modelled by lookup with default `none`.

`Decimal` values are modelled by their coefficient and scale (number of
fractional digits, i.e. a non-negative exponent of 10 dividing the value),
which is exactly the data `decimal.Decimal` carries for the fixed-point
values this layer is concerned with; `str` of such a value is computed by
`decimalStr`.
-/

namespace Sandman

/-- Python values relevant to `sandman/model.py`: `None`, `int`, `bool`,
`str`, `decimal.Decimal` (coefficient and scale), lists and dicts. -/
inductive PyVal where
  | vnone : PyVal
  | vint : Int → PyVal
  | vbool : Bool → PyVal
  | vstr : String → PyVal
  | vdecimal : Int → Nat → PyVal
  | vlist : List PyVal → PyVal
  | vdict : List (String × PyVal) → PyVal

/-- Python truthiness for the modelled values: `None`, `0`, `False`, the
empty string, zero `Decimal`s and empty collections are falsy. -/
def truthy : PyVal → Bool
  | .vnone => false
  | .vint n => n != 0
  | .vbool b => b
  | .vstr s => s != ""
  | .vdecimal c _ => c != 0
  | .vlist l => !l.isEmpty
  | .vdict l => !l.isEmpty

/-- First-match lookup in an association list (Python `dict` access). -/
def alookup {α : Type} (l : List (String × α)) (k : String) : Option α :=
  match l with
  | [] => none
  | (k₁, v) :: rest => if k₁ = k then some v else alookup rest k

/-- Assignment `d[k] = v` on a Python dict: overwrite the existing entry in
place if `k` is present, otherwise append a new entry at the end (Python
dicts preserve insertion order). The same operation models `setattr`. -/
def aset {α : Type} (l : List (String × α)) (k : String) (v : α) :
    List (String × α) :=
  match l with
  | [] => [(k, v)]
  | (k₁, v₁) :: rest => if k₁ = k then (k, v) :: rest else (k₁, v₁) :: aset rest k v

/-- `dictionary.get(k, None)` from Python: lookup with default `None`. -/
def dget (d : List (String × PyVal)) (k : String) : PyVal :=
  (alookup d k).getD PyVal.vnone

/-- A resource instance: its attribute store. An attribute absent from the
list is an attribute that has never been set on the instance. -/
structure Instance where
  attrs : List (String × PyVal)

/-- `getattr(self, name, None)`: the attribute's value, or `None` when the
attribute is not set. -/
def getattrD (self : Instance) (name : String) : PyVal :=
  (alookup self.attrs name).getD PyVal.vnone

/-- `setattr(self, name, value)`. -/
def setattr (self : Instance) (name : String) (v : PyVal) : Instance :=
  ⟨aset self.attrs name v⟩

/-- The per-class configuration of a resource class derived from
`sandman.model.Model`: the `__endpoint__` override, `__tablename__`, and the
table metadata populated by reflection (`__table__.columns.keys()` and the
primary-key columns in metadata order). `none` for the first two models the
Python default `None`. -/
structure ModelClass where
  endpoint_override : Option String
  tablename : Option String
  columns : List String
  pk_columns : List String
  deriving DecidableEq

namespace Model

/-- Python `str.lower()`, character by character (ASCII case mapping, which
is all `lower` does on ASCII table names). -/
def strLower (s : String) : String :=
  String.mk (s.data.map Char.toLower)

/-- `Model.endpoint`: the `__endpoint__` override when set, otherwise
`__tablename__.lower() + 's'`. `none` models the `AttributeError` raised
when neither is configured. -/
def endpoint (cls : ModelClass) : Option String :=
  match cls.endpoint_override with
  | some e => some e
  | none => cls.tablename.map (fun t => strLower t ++ "s")

/-- `Model.primary_key`: the name of the first primary-key column of the
table; `none` models the `IndexError` on a table with no primary key. -/
def primary_key (cls : ModelClass) : Option String :=
  cls.pk_columns.head?

/-- The digit characters of a `Decimal`'s coefficient `n`, zero-padded on
the left so that at least one digit precedes the decimal point when `scale`
fractional digits are split off. -/
def decimalDigits (n scale : Nat) : List Char :=
  if (Nat.repr n).toList.length < scale + 1 then
    List.replicate (scale + 1 - (Nat.repr n).toList.length) (Char.ofNat 48) ++
      (Nat.repr n).toList
  else (Nat.repr n).toList

/-- `str` of a `Decimal` with coefficient `c` and `scale` fractional digits
(e.g. coefficient `1250`, scale `2` prints `"12.50"`). -/
def decimalStr (c : Int) (scale : Nat) : String :=
  (if c < 0 then "-" else "") ++
    (if scale = 0 then Nat.repr c.natAbs
     else
       String.mk ((decimalDigits c.natAbs scale).take
           ((decimalDigits c.natAbs scale).length - scale)) ++ "." ++
         String.mk ((decimalDigits c.natAbs scale).drop
           ((decimalDigits c.natAbs scale).length - scale)))

/-- The apostrophe character, used by Python `repr` of strings. -/
def squote : String := String.singleton (Char.ofNat 39)

mutual

/-- Python `str()` of a value as used by `'{}'.format(...)`. Collections are
rendered as by Python `repr` (string escaping inside `repr` is not modelled;
no claim stringifies a string containing quotes). -/
def pyStr : PyVal → String
  | .vnone => "None"
  | .vint n => toString n
  | .vbool b => if b then "True" else "False"
  | .vstr s => s
  | .vdecimal c scale => decimalStr c scale
  | .vlist l => "[" ++ String.intercalate ", " (pyReprList l) ++ "]"
  | .vdict d => "\x7b" ++ String.intercalate ", " (pyReprItems d) ++ "\x7d"

/-- Python `repr()` of a value (modulo string escaping, see `pyStr`). -/
def pyRepr : PyVal → String
  | .vnone => "None"
  | .vint n => toString n
  | .vbool b => if b then "True" else "False"
  | .vstr s => squote ++ s ++ squote
  | .vdecimal c scale => "Decimal(" ++ squote ++ decimalStr c scale ++ squote ++ ")"
  | .vlist l => "[" ++ String.intercalate ", " (pyReprList l) ++ "]"
  | .vdict d => "\x7b" ++ String.intercalate ", " (pyReprItems d) ++ "\x7d"

/-- `repr` of each element of a Python list. -/
def pyReprList : List PyVal → List String
  | [] => []
  | v :: rest => pyRepr v :: pyReprList rest

/-- `repr(k): repr(v)` for each entry of a Python dict. -/
def pyReprItems : List (String × PyVal) → List String
  | [] => []
  | (k, v) :: rest => (squote ++ k ++ squote ++ ": " ++ pyRepr v) :: pyReprItems rest

end

/-- `Model.resource_uri`: `'/{}/{}'.format(self.endpoint(), primary_key_value)`
where `primary_key_value = getattr(self, self.primary_key(), None)`.
`none` models the exceptions propagated from `primary_key` / `endpoint`. -/
def resource_uri (cls : ModelClass) (self : Instance) : Option String :=
  (primary_key cls).bind fun pk =>
    (endpoint cls).map fun ep =>
      "/" ++ ep ++ "/" ++ pyStr (getattrD self pk)

/-- `Model.links`: the list `[{'rel': 'self', 'uri': self.resource_uri()}]`. -/
def links (cls : ModelClass) (self : Instance) : Option PyVal :=
  (resource_uri cls self).map fun uri =>
    PyVal.vlist [PyVal.vdict [("rel", PyVal.vstr "self"), ("uri", PyVal.vstr uri)]]

/-- The `Decimal`-to-string conversion `as_dict` applies to each column
value: `if isinstance(v, Decimal): v = str(v)`. -/
def decimalConv : PyVal → PyVal
  | .vdecimal c scale => PyVal.vstr (decimalStr c scale)
  | v => v

/-- One iteration of the column loop of `Model.as_dict`:
`result_dict[column] = getattr(self, column, None)`, followed by the
`Decimal` stringification. -/
def adStep (self : Instance) (d : List (String × PyVal)) (column : String) :
    List (String × PyVal) :=
  aset d column (decimalConv (getattrD self column))

/-- The column loop of `Model.as_dict`:
`for column in self.__table__.columns.keys():
   result_dict[column] = getattr(self, column, None); ...`. -/
def asDictCols (cols : List String) (self : Instance)
    (acc : List (String × PyVal)) : List (String × PyVal) :=
  cols.foldl (adStep self) acc

/-- `Model.as_dict`: one entry per table column (Decimals stringified),
plus the `'links'` entry. `none` models the exceptions propagated from
`links` (via `resource_uri`). -/
def as_dict (cls : ModelClass) (self : Instance) :
    Option (List (String × PyVal)) :=
  (links cls self).map fun ls =>
    aset (asDictCols cls.columns self []) "links" ls

/-- One iteration of the `Model.from_dict` loop:
`value = dictionary.get(column, None); if value: setattr(self, column, value)`. -/
def fdStep (dictionary : List (String × PyVal)) (inst : Instance)
    (column : String) : Instance :=
  let value := dget dictionary column
  if truthy value then setattr inst column value else inst

/-- `Model.from_dict`: for each table column, read the input dictionary with
default `None` and set the attribute only when the value is truthy. -/
def from_dict (cls : ModelClass) (self : Instance)
    (dictionary : List (String × PyVal)) : Instance :=
  cls.columns.foldl (fdStep dictionary) self

/-- One iteration of the clearing loop of `Model.replace`:
`setattr(self, column, None)`. -/
def clearStep (inst : Instance) (column : String) : Instance :=
  setattr inst column PyVal.vnone

/-- The clearing loop of `Model.replace`: set every table column's attribute
to `None`. -/
def clearCols (cls : ModelClass) (self : Instance) : Instance :=
  cls.columns.foldl clearStep self

/-- `Model.replace`: set every table column to `None`, then `from_dict`. -/
def replace (cls : ModelClass) (self : Instance)
    (dictionary : List (String × PyVal)) : Instance :=
  from_dict cls (clearCols cls self) dictionary

end Model

/-- The application state touched by `register`: `current_app.endpoint_classes`,
which is absent (`None`) until the first registration creates it. -/
structure AppState where
  endpoint_classes : Option (List (String × ModelClass))
  deriving DecidableEq

/-- `register` for a single class: create the registry if absent, then store
the class under its endpoint. `none` models the exception propagated when
`endpoint()` raises. (The call to `Model.prepare(db.engine)` is a schema
reflection side effect external to this layer.) -/
def register (st : AppState) (cls : ModelClass) : Option AppState :=
  let reg := st.endpoint_classes.getD []
  (Model.endpoint cls).map fun ep => ⟨some (aset reg ep cls)⟩

/-- `register` for a list/tuple of classes: store each in order. -/
def registerMany (st : AppState) (clss : List ModelClass) : Option AppState :=
  let reg := st.endpoint_classes.getD []
  (clss.foldlM (fun r cls => (Model.endpoint cls).map fun ep => aset r ep cls)
    reg).map fun r => ⟨some r⟩

/-- Lookup of `current_app.endpoint_classes[ep]`. -/
def registryLookup (st : AppState) (ep : String) : Option ModelClass :=
  st.endpoint_classes.bind fun reg => alookup reg ep

/-- Two successive calls to `register`. -/
def registerBoth (st : AppState) (c1 c2 : ModelClass) : Option AppState :=
  (register st c1).bind fun st1 => register st1 c2

/-- The class found in the registry under `ep` after two successive calls to
`register`; `none` when either call raised. -/
def registerBothLookup (st : AppState) (c1 c2 : ModelClass) (ep : String) :
    Option ModelClass :=
  (registerBoth st c1 c2).bind fun st2 => registryLookup st2 ep

/-! ## Concrete fixtures

Concrete resource classes and instances used to instantiate the theorems
(the `person` table from the spec's end-to-end scenario, an `Item` table
with a `quantity` column, a `Thing` table with a `Decimal`-valued `price`
column, and two classes sharing an endpoint override). -/

/-- A resource class for table `Person` with no endpoint override. -/
def personCls : ModelClass := ⟨none, some "Person", ["id", "name"], ["id"]⟩

/-- A `Person` row with `id = 3`. -/
def personInst : Instance :=
  ⟨[("id", PyVal.vint 3), ("name", PyVal.vstr "Jeff")]⟩

/-- The dictionary `as_dict` produces for `personInst`. -/
def personDict : List (String × PyVal) :=
  [("id", PyVal.vint 3), ("name", PyVal.vstr "Jeff"),
   ("links", PyVal.vlist [PyVal.vdict
     [("rel", PyVal.vstr "self"), ("uri", PyVal.vstr "/persons/3")]])]

/-- A resource class for table `Item` with an integer `quantity` column. -/
def itemCls : ModelClass := ⟨none, some "Item", ["id", "quantity"], ["id"]⟩

/-- An `Item` row with `id = 1` and `quantity = 5`. -/
def itemInst : Instance :=
  ⟨[("id", PyVal.vint 1), ("quantity", PyVal.vint 5)]⟩

/-- A resource class for table `Thing` with a single `Decimal`-valued
`price` column (explicit endpoint `things`). -/
def thingCls : ModelClass := ⟨some "things", some "Thing", ["price"], ["price"]⟩

/-- A `Thing` row whose `price` is `Decimal('12.50')`. -/
def thingInst : Instance := ⟨[("price", PyVal.vdecimal 1250 2)]⟩

/-- The dictionary `as_dict` produces for `thingInst`. -/
def thingDict : List (String × PyVal) :=
  [("price", PyVal.vstr "12.50"),
   ("links", PyVal.vlist [PyVal.vdict
     [("rel", PyVal.vstr "self"), ("uri", PyVal.vstr "/things/12.50")]])]

/-- A resource class registered under the endpoint `persons`. -/
def clsA : ModelClass := ⟨some "persons", some "A", [], []⟩

/-- A distinct resource class registered under the same endpoint `persons`. -/
def clsB : ModelClass := ⟨some "persons", some "B", [], []⟩

/-! ## Association-list and attribute-store lemmas -/

theorem alookup_aset {α : Type} (l : List (String × α)) (k : String) (v : α)
    (k' : String) :
    alookup (aset l k v) k' = if k = k' then some v else alookup l k' := by
  induction l with
  | nil => by_cases h : k = k' <;> simp [aset, alookup, h]
  | cons hd tl ih =>
    obtain ⟨k₁, v₁⟩ := hd
    by_cases h1 : k₁ = k
    · subst h1
      by_cases h2 : k₁ = k' <;> simp [aset, alookup, h2]
    · by_cases h2 : k₁ = k'
      · subst h2
        have hk : k ≠ k₁ := fun he => h1 he.symm
        simp [aset, alookup, h1, hk]
      · simp [aset, alookup, h1, h2, ih]

theorem getattrD_setattr (self : Instance) (k : String) (v : PyVal)
    (k' : String) :
    getattrD (setattr self k v) k' = if k = k' then v else getattrD self k' := by
  by_cases h : k = k' <;> simp [getattrD, setattr, alookup_aset, h]

namespace Model

theorem fdFold_alookup_notmem (d : List (String × PyVal)) (cols : List String)
    (self : Instance) (a : String) (h : a ∉ cols) :
    alookup (List.foldl (fdStep d) self cols).attrs a = alookup self.attrs a := by
  induction cols generalizing self with
  | nil => rfl
  | cons x xs ih =>
    have hxa : x ≠ a := fun he => h (he ▸ List.mem_cons_self _ _)
    rw [List.foldl_cons, ih _ (fun hx => h (List.mem_cons_of_mem _ hx))]
    by_cases ht : truthy (dget d x) <;>
      simp [fdStep, ht, setattr, alookup_aset, hxa]

theorem fdFold_getattrD_mem (d : List (String × PyVal)) (cols : List String)
    (self : Instance) (col : String) (h : col ∈ cols) :
    getattrD (List.foldl (fdStep d) self cols) col =
      if truthy (dget d col) then dget d col else getattrD self col := by
  induction cols generalizing self with
  | nil => cases h
  | cons x xs ih =>
    rw [List.foldl_cons]
    by_cases hm : col ∈ xs
    · rw [ih _ hm]
      by_cases hx : x = col
      · subst hx
        by_cases ht : truthy (dget d x) <;>
          simp [fdStep, ht, getattrD_setattr]
      · by_cases ht : truthy (dget d x) <;>
          simp [fdStep, ht, getattrD_setattr, hx]
    · have hx : x = col := by
        rcases List.mem_cons.mp h with h' | h'
        · exact h'.symm
        · exact absurd h' hm
      subst hx
      have hfr : getattrD (List.foldl (fdStep d) (fdStep d self x) xs) x =
          getattrD (fdStep d self x) x := by
        unfold getattrD
        rw [fdFold_alookup_notmem d xs _ x hm]
      rw [hfr]
      by_cases ht : truthy (dget d x) <;>
        simp [fdStep, ht, getattrD_setattr]

theorem clearFold_alookup_notmem (cols : List String) (self : Instance)
    (a : String) (h : a ∉ cols) :
    alookup (List.foldl clearStep self cols).attrs a = alookup self.attrs a := by
  induction cols generalizing self with
  | nil => rfl
  | cons x xs ih =>
    have hxa : x ≠ a := fun he => h (he ▸ List.mem_cons_self _ _)
    rw [List.foldl_cons, ih _ (fun hx => h (List.mem_cons_of_mem _ hx))]
    simp [clearStep, setattr, alookup_aset, hxa]

theorem clearFold_getattrD_mem (cols : List String) (self : Instance)
    (col : String) (h : col ∈ cols) :
    getattrD (List.foldl clearStep self cols) col = PyVal.vnone := by
  induction cols generalizing self with
  | nil => cases h
  | cons x xs ih =>
    rw [List.foldl_cons]
    by_cases hm : col ∈ xs
    · exact ih _ hm
    · have hx : x = col := by
        rcases List.mem_cons.mp h with h' | h'
        · exact h'.symm
        · exact absurd h' hm
      subst hx
      unfold getattrD
      rw [clearFold_alookup_notmem xs _ x hm]
      simp [clearStep, setattr, alookup_aset]

theorem replace_getattrD_mem (cls : ModelClass) (self : Instance)
    (d : List (String × PyVal)) (col : String) (h : col ∈ cls.columns) :
    getattrD (replace cls self d) col =
      if truthy (dget d col) then dget d col else PyVal.vnone := by
  unfold replace from_dict clearCols
  rw [fdFold_getattrD_mem _ _ _ _ h, clearFold_getattrD_mem _ _ _ h]

theorem adFold_alookup_notmem (self : Instance) (cols : List String)
    (acc : List (String × PyVal)) (k : String) (h : k ∉ cols) :
    alookup (List.foldl (adStep self) acc cols) k = alookup acc k := by
  induction cols generalizing acc with
  | nil => rfl
  | cons x xs ih =>
    have hxk : x ≠ k := fun he => h (he ▸ List.mem_cons_self _ _)
    rw [List.foldl_cons, ih _ (fun hx => h (List.mem_cons_of_mem _ hx))]
    simp [adStep, alookup_aset, hxk]

theorem adFold_alookup_mem (self : Instance) (cols : List String)
    (acc : List (String × PyVal)) (col : String) (h : col ∈ cols) :
    alookup (List.foldl (adStep self) acc cols) col =
      some (decimalConv (getattrD self col)) := by
  induction cols generalizing acc with
  | nil => cases h
  | cons x xs ih =>
    rw [List.foldl_cons]
    by_cases hm : col ∈ xs
    · exact ih _ hm
    · have hx : x = col := by
        rcases List.mem_cons.mp h with h' | h'
        · exact h'.symm
        · exact absurd h' hm
      subst hx
      rw [adFold_alookup_notmem self xs _ x hm]
      simp [adStep, alookup_aset]

theorem toDigitsCore_length_le (b : Nat) :
    ∀ (fuel n : Nat) (ds : List Char),
      ds.length ≤ (Nat.toDigitsCore b fuel n ds).length := by
  intro fuel
  induction fuel with
  | zero => intro n ds; simp [Nat.toDigitsCore]
  | succ f ih =>
    intro n ds
    simp only [Nat.toDigitsCore]
    split
    · simp
    · exact le_trans (by simp) (ih _ _)

theorem toDigitsCore_length_lt (b : Nat) (fuel n : Nat) (ds : List Char)
    (h : 0 < fuel) :
    ds.length < (Nat.toDigitsCore b fuel n ds).length := by
  cases fuel with
  | zero => cases h
  | succ f =>
    simp only [Nat.toDigitsCore]
    split
    · simp
    · exact lt_of_lt_of_le (by simp) (toDigitsCore_length_le b f _ _)

theorem repr_length_pos (n : Nat) : 0 < (Nat.repr n).length := by
  have h := toDigitsCore_length_lt 10 (n + 1) n [] (Nat.succ_pos n)
  simpa [Nat.repr, Nat.toDigits, List.asString, String.length_mk] using h

theorem decimalStr_length_pos (c : Int) (scale : Nat) :
    0 < (decimalStr c scale).length := by
  unfold decimalStr
  rw [String.length_append]
  by_cases hs : scale = 0
  · rw [if_pos hs]
    have := repr_length_pos c.natAbs
    omega
  · rw [if_neg hs, String.length_append, String.length_append]
    have : ("." : String).length = 1 := rfl
    omega

theorem decimalStr_ne_empty (c : Int) (scale : Nat) : decimalStr c scale ≠ "" := by
  intro h
  have hp := decimalStr_length_pos c scale
  rw [h] at hp
  exact Nat.lt_irrefl 0 hp

/-- The `Decimal`-to-string conversion of `as_dict` preserves truthiness:
`str` of a `Decimal` is a nonempty string. -/
theorem truthy_decimalConv (v : PyVal) (h : truthy v = true) :
    truthy (decimalConv v) = true := by
  cases v with
  | vdecimal c scale =>
    simp only [decimalConv, truthy, bne_iff_ne, ne_eq]
    exact decimalStr_ne_empty c scale
  | vnone => exact h
  | vint n => exact h
  | vbool b => exact h
  | vstr s => exact h
  | vlist l => exact h
  | vdict d => exact h

theorem adFold_isSome (self : Instance) (cols : List String)
    (acc : List (String × PyVal)) (k : String) :
    (alookup (List.foldl (adStep self) acc cols) k).isSome ↔
      (k ∈ cols ∨ (alookup acc k).isSome) := by
  induction cols generalizing acc with
  | nil => simp
  | cons x xs ih =>
    rw [List.foldl_cons, ih]
    by_cases hx : x = k
    · simp [adStep, alookup_aset, hx]
    · simp [adStep, alookup_aset, hx]
      tauto

theorem as_dict_alookup_col (cls : ModelClass) (self : Instance)
    (dd : List (String × PyVal)) (col : String)
    (hd : as_dict cls self = some dd) (hcol : col ∈ cls.columns)
    (hne : col ≠ "links") :
    alookup dd col = some (decimalConv (getattrD self col)) := by
  unfold as_dict at hd
  rcases Option.map_eq_some'.mp hd with ⟨ls, _, rfl⟩
  rw [alookup_aset, if_neg (fun h => hne h.symm)]
  exact adFold_alookup_mem self cls.columns [] col hcol

theorem as_dict_alookup_links (cls : ModelClass) (self : Instance)
    (dd : List (String × PyVal)) (hd : as_dict cls self = some dd) :
    alookup dd "links" = links cls self := by
  unfold as_dict at hd
  rcases Option.map_eq_some'.mp hd with ⟨ls, hls, rfl⟩
  rw [alookup_aset, if_pos rfl, hls]

theorem as_dict_keys_iff (cls : ModelClass) (self : Instance)
    (dd : List (String × PyVal)) (k : String)
    (hd : as_dict cls self = some dd) :
    (alookup dd k).isSome ↔ (k ∈ cls.columns ∨ k = "links") := by
  unfold as_dict at hd
  rcases Option.map_eq_some'.mp hd with ⟨ls, _, rfl⟩
  rw [alookup_aset]
  by_cases hk : "links" = k
  · simp [hk]
  · rw [if_neg hk]
    rw [show asDictCols cls.columns self [] =
      List.foldl (adStep self) [] cls.columns from rfl, adFold_isSome]
    simp [alookup]
    intro h
    exact absurd h.symm hk

end Model

/-! ## The claims -/

/-- C1: for every resource instance and input mapping, `from_dict` sets a
table column's attribute to the mapping's value exactly when
`dictionary.get(column, None)` is truthy; when the key is absent or its
value is falsy (`None`, `0`, empty string, empty collection) the attribute
keeps its prior value. -/
theorem C1_from_dict_truthy_only (cls : ModelClass) (self : Instance)
    (d : List (String × PyVal)) (col : String) (h : col ∈ cls.columns) :
    getattrD (Model.from_dict cls self d) col =
      if truthy (dget d col) then dget d col else getattrD self col :=
  Model.fdFold_getattrD_mem d cls.columns self col h

/-- C1 witness: on an `Item` instance with `quantity = 5`,
`from_dict({"quantity": 0})` leaves `quantity = 5`, since `0` is falsy. -/
theorem C1_from_dict_truthy_only_witness :
    "quantity" ∈ itemCls.columns ∧
    getattrD (Model.from_dict itemCls itemInst [("quantity", PyVal.vint 0)])
      "quantity" = PyVal.vint 5 := by
  refine ⟨by decide, ?_⟩
  rw [C1_from_dict_truthy_only itemCls itemInst [("quantity", PyVal.vint 0)]
    "quantity" (by decide)]
  rfl

/-- C2: after `replace`, every table column whose key is absent from the
mapping or maps to a falsy value is `None`, and every column whose key maps
to a truthy value equals that value. -/
theorem C2_replace_spec (cls : ModelClass) (self : Instance)
    (d : List (String × PyVal)) (col : String) (h : col ∈ cls.columns) :
    getattrD (Model.replace cls self d) col =
      if truthy (dget d col) then dget d col else PyVal.vnone :=
  Model.replace_getattrD_mem cls self d col h

/-- C2 witness: `replace({})` on an `Item` instance with prior values sets
both table columns to `None`. -/
theorem C2_replace_spec_witness :
    getattrD (Model.replace itemCls itemInst []) "id" = PyVal.vnone ∧
    getattrD (Model.replace itemCls itemInst []) "quantity" = PyVal.vnone := by
  constructor
  · rw [C2_replace_spec itemCls itemInst [] "id" (by decide)]
    rfl
  · rw [C2_replace_spec itemCls itemInst [] "quantity" (by decide)]
    rfl

/-- C3 counterexample: a `Thing` instance whose only column `price` holds
the truthy value `Decimal('12.50')` round-trips through `as_dict` followed
by `from_dict` on a fresh instance to the string `"12.50"`: the column is
not attribute-for-attribute equal to the original, because `as_dict`
stringifies `Decimal` values and `from_dict` sets the string back. -/
theorem C3_counterexample :
    truthy (getattrD thingInst "price") = true ∧
    Model.as_dict thingCls thingInst = some thingDict ∧
    getattrD (Model.from_dict thingCls ⟨[]⟩ thingDict) "price" =
      PyVal.vstr "12.50" ∧
    getattrD thingInst "price" = PyVal.vdecimal 1250 2 ∧
    PyVal.vstr "12.50" ≠ PyVal.vdecimal 1250 2 :=
  ⟨rfl, rfl, rfl, rfl, fun h => PyVal.noConfusion h⟩

/-- C3 (amended): for an instance whose table columns all hold truthy
values, `as_dict` followed by `from_dict` on a fresh instance reproduces
each column's value up to `as_dict`'s `Decimal` stringification: each
column of the new instance equals `decimalConv` of the original value, so
attribute-for-attribute equality holds on every column not holding a
`Decimal`. (The table must not declare a column named `links`: such a
column would collide with the mixin's `links` method and its `as_dict`
entry is overwritten by the links list.) -/
theorem C3_roundtrip_amended (cls : ModelClass) (self fresh : Instance)
    (dd : List (String × PyVal)) (col : String)
    (hlinks : "links" ∉ cls.columns)
    (ht : ∀ c ∈ cls.columns, truthy (getattrD self c) = true)
    (hd : Model.as_dict cls self = some dd) (hcol : col ∈ cls.columns) :
    getattrD (Model.from_dict cls fresh dd) col =
      Model.decimalConv (getattrD self col) := by
  have hne : col ≠ "links" := fun h => hlinks (h ▸ hcol)
  have hv := Model.as_dict_alookup_col cls self dd col hd hcol hne
  have hdget : dget dd col = Model.decimalConv (getattrD self col) := by
    unfold dget
    rw [hv]
    rfl
  have htr := Model.truthy_decimalConv (getattrD self col) (ht col hcol)
  unfold Model.from_dict
  rw [Model.fdFold_getattrD_mem dd cls.columns fresh col hcol, hdget, htr]
  simp

/-- C3 witness for the amended claim: the `Thing` round-trip reproduces
`price` as `decimalConv` of the original `Decimal`. -/
theorem C3_roundtrip_amended_witness :
    getattrD (Model.from_dict thingCls ⟨[]⟩ thingDict) "price" =
      Model.decimalConv (getattrD thingInst "price") :=
  C3_roundtrip_amended thingCls thingInst ⟨[]⟩ thingDict "price"
    (by decide) (by decide) rfl (by decide)

/-- C4: `endpoint()` returns the explicit `__endpoint__` override verbatim
when one is set, regardless of the table name; otherwise it returns the
lowercased table name with the suffix `"s"` appended. -/
theorem C4_endpoint_spec (cls : ModelClass) :
    (∀ e, cls.endpoint_override = some e → Model.endpoint cls = some e) ∧
    (cls.endpoint_override = none → ∀ t, cls.tablename = some t →
      Model.endpoint cls = some (Model.strLower t ++ "s")) := by
  constructor
  · intro e he
    unfold Model.endpoint
    rw [he]
  · intro hn t htn
    unfold Model.endpoint
    rw [hn, htn]
    rfl

/-- C4 witness: `thingCls` has override `"things"` (table `Thing`), and
`personCls` has no override and table `Person`, so its endpoint is
`"persons"`. -/
theorem C4_endpoint_spec_witness :
    Model.endpoint thingCls = some "things" ∧
    Model.endpoint personCls = some "persons" := by
  constructor
  · exact (C4_endpoint_spec thingCls).1 "things" rfl
  · exact ((C4_endpoint_spec personCls).2 rfl "Person" rfl).trans (by decide)

/-- C5 counterexample: on a `Person` instance that has not been assigned a
primary-key value, the key segment of `resource_uri()` is the nonempty
string `"None"` (Python `str(None)`), not empty or absent. -/
theorem C5_counterexample :
    Model.resource_uri personCls ⟨[]⟩ = some "/persons/None" ∧
    "/persons/None" ≠ "/persons/" :=
  ⟨rfl, by decide⟩

/-- C5 (amended): `resource_uri()` returns `"/<endpoint>/<pk>"` where
`<pk>` is Python `str` of the instance's current primary-key attribute
value; when the instance has not been assigned one, the segment is the
string `"None"` (`str` of `None`), not empty or absent. `links()` wraps the
URI in a single self link. -/
theorem C5_resource_uri_amended (cls : ModelClass) (self : Instance)
    (pk ep : String) (hpk : Model.primary_key cls = some pk)
    (hep : Model.endpoint cls = some ep) :
    Model.resource_uri cls self =
      some ("/" ++ ep ++ "/" ++ Model.pyStr (getattrD self pk)) ∧
    Model.links cls self = some (PyVal.vlist [PyVal.vdict
      [("rel", PyVal.vstr "self"),
       ("uri", PyVal.vstr ("/" ++ ep ++ "/" ++
         Model.pyStr (getattrD self pk)))]]) := by
  have hru : Model.resource_uri cls self =
      some ("/" ++ ep ++ "/" ++ Model.pyStr (getattrD self pk)) := by
    unfold Model.resource_uri
    rw [hpk, hep]
    rfl
  refine ⟨hru, ?_⟩
  unfold Model.links
  rw [hru]
  rfl

/-- C5 witness: a `Person` with `id = 3` has URI `"/persons/3"` and a
single self link to it. -/
theorem C5_resource_uri_amended_witness :
    Model.resource_uri personCls personInst = some "/persons/3" ∧
    Model.links personCls personInst = some (PyVal.vlist [PyVal.vdict
      [("rel", PyVal.vstr "self"), ("uri", PyVal.vstr "/persons/3")]]) := by
  have h := C5_resource_uri_amended personCls personInst "id" "persons" rfl
    (by decide)
  exact ⟨h.1, h.2⟩

/-- C6: the key set of the dictionary returned by `as_dict` is exactly the
table's column names plus the single extra key `"links"`; no other
instance attribute appears. -/
theorem C6_as_dict_keys (cls : ModelClass) (self : Instance)
    (dd : List (String × PyVal)) (k : String)
    (hd : Model.as_dict cls self = some dd) :
    (alookup dd k).isSome ↔ (k ∈ cls.columns ∨ k = "links") :=
  Model.as_dict_keys_iff cls self dd k hd

/-- C6 witness: in the `as_dict` output for `personInst`, the column `id`
is present and the non-column attribute `extra` is absent. -/
theorem C6_as_dict_keys_witness :
    ((alookup personDict "id").isSome ↔
      ("id" ∈ personCls.columns ∨ "id" = "links")) ∧
    ((alookup personDict "extra").isSome ↔
      ("extra" ∈ personCls.columns ∨ "extra" = "links")) :=
  ⟨C6_as_dict_keys personCls personInst personDict "id" rfl,
   C6_as_dict_keys personCls personInst personDict "extra" rfl⟩

/-- C7: a column holding a `Decimal` with coefficient `c` and `scale`
fractional digits appears in the `as_dict` output as its exact string
representation `decimalStr c scale`, not a floating-point approximation.
(`col ≠ "links"`: a reflected column named `links` would collide with the
mixin's `links` method.) -/
theorem C7_decimal_as_string (cls : ModelClass) (self : Instance)
    (dd : List (String × PyVal)) (col : String) (c : Int) (scale : Nat)
    (hcol : col ∈ cls.columns) (hne : col ≠ "links")
    (hval : getattrD self col = PyVal.vdecimal c scale)
    (hd : Model.as_dict cls self = some dd) :
    alookup dd col = some (PyVal.vstr (Model.decimalStr c scale)) := by
  rw [Model.as_dict_alookup_col cls self dd col hd hcol hne, hval]
  rfl

/-- C7 witness: `price = Decimal('12.50')` appears in the `as_dict` output
as the string `"12.50"`. -/
theorem C7_decimal_as_string_witness :
    alookup thingDict "price" = some (PyVal.vstr "12.50") :=
  C7_decimal_as_string thingCls thingInst thingDict "price" 1250 2
    (by decide) (by decide) rfl rfl

/-- C8: registering two distinct classes under the same endpoint name
raises no error, and afterwards the registry maps that endpoint to the
class registered second (last write wins). -/
theorem C8_register_last_write_wins (st0 : AppState) (A B : ModelClass)
    (ep : String) (_hAB : A ≠ B) (hA : Model.endpoint A = some ep)
    (hB : Model.endpoint B = some ep) :
    (registerBoth st0 A B).isSome = true ∧
    registerBothLookup st0 A B ep = some B := by
  unfold registerBothLookup registerBoth register registryLookup
  rw [hA, hB]
  simp [alookup_aset]

/-- C8 witness: registering `clsA` then `clsB`, both under endpoint
`"persons"`, starting from an uninitialized registry, succeeds and leaves
`clsB` in the registry. -/
theorem C8_register_last_write_wins_witness :
    (registerBoth ⟨none⟩ clsA clsB).isSome = true ∧
    registerBothLookup ⟨none⟩ clsA clsB "persons" = some clsB :=
  C8_register_last_write_wins ⟨none⟩ clsA clsB "persons" (by decide) rfl rfl

/-- C9: calling `replace` twice in succession with the same mapping leaves
every table column in the same final state as calling it once. -/
theorem C9_replace_idempotent (cls : ModelClass) (self : Instance)
    (d : List (String × PyVal)) (col : String) (h : col ∈ cls.columns) :
    getattrD (Model.replace cls (Model.replace cls self d) d) col =
      getattrD (Model.replace cls self d) col := by
  rw [Model.replace_getattrD_mem cls _ d col h,
    Model.replace_getattrD_mem cls self d col h]

/-- C9 witness: replacing twice with `{"quantity": 7}` on an `Item`
instance agrees with replacing once on the `quantity` column. -/
theorem C9_replace_idempotent_witness :
    getattrD (Model.replace itemCls (Model.replace itemCls itemInst
        [("quantity", PyVal.vint 7)]) [("quantity", PyVal.vint 7)])
      "quantity" =
    getattrD (Model.replace itemCls itemInst [("quantity", PyVal.vint 7)])
      "quantity" :=
  C9_replace_idempotent itemCls itemInst [("quantity", PyVal.vint 7)]
    "quantity" (by decide)

/-- C10: `from_dict` and `replace` modify only attributes named by the
table's columns: an attribute outside the columns — including one named by
an input key that is not a column — is never set and keeps its exact prior
state (even `unset`). -/
theorem C10_frame (cls : ModelClass) (self : Instance)
    (d : List (String × PyVal)) (a : String) (h : a ∉ cls.columns) :
    alookup (Model.from_dict cls self d).attrs a = alookup self.attrs a ∧
    alookup (Model.replace cls self d).attrs a = alookup self.attrs a := by
  constructor
  · exact Model.fdFold_alookup_notmem d cls.columns self a h
  · unfold Model.replace Model.from_dict Model.clearCols
    rw [Model.fdFold_alookup_notmem d cls.columns _ a h,
      Model.clearFold_alookup_notmem cls.columns self a h]

/-- C10 witness: the non-column input key `extra` sets no attribute, under
both `from_dict` and `replace`. -/
theorem C10_frame_witness :
    alookup (Model.from_dict itemCls itemInst
      [("extra", PyVal.vint 7)]).attrs "extra" = none ∧
    alookup (Model.replace itemCls itemInst
      [("extra", PyVal.vint 7)]).attrs "extra" = none := by
  have h := C10_frame itemCls itemInst [("extra", PyVal.vint 7)] "extra"
    (by decide)
  exact ⟨h.1, h.2⟩

end Sandman
